import Mathlib

/-!
Shallow embedding of the rating-aggregation and review-interaction core of a
book-review REST backend (Mongoose models `Book`, `Review`, `User` and the
`reviews` route handlers).  JavaScript numbers are modelled as `ℚ` where
fractional values arise (the stored `averageRating`) and as `Nat`/`Int` where
the code only ever holds integers (ratings are validated integers in `[1,5]`,
vote counters are incremented/decremented by 1).  Object ids are `Nat`, and
the document store is an explicit record of lists threaded through each
handler.  An HTTP response is modelled by its status code paired with the
post-state of the store.
-/

namespace BookPlatform

/-- A `helpful` or `likes` block of a review document: a counter stored
separately from the voter array, kept in sync manually by the code
(`Review.js`, schema fields `helpful` and `likes`). -/
structure VoteBlock where
  count : Int
  users : List Nat
deriving Repr, DecidableEq

/-- The fields of a `Review` document that the reviews route handlers and the
`Review` model methods read or write (`Review.js`). -/
structure Review where
  rid : Nat
  user : Nat
  book : Nat
  rating : Nat
  title : String
  content : String
  spoilerAlert : Bool
  readingStatus : String
  format : String
  price : Option ℚ
  currency : String
  readDate : Option Nat
  helpful : VoteBlock
  likes : VoteBlock
  isVerified : Bool
  isActive : Bool
deriving Repr, DecidableEq

/-- The fields of a `Book` document relevant to rating aggregation
(`Book.js`). -/
structure Book where
  bid : Nat
  averageRating : ℚ
  totalRatings : Nat
  isActive : Bool
deriving Repr, DecidableEq

/-- The fields of a `User` document touched by the reviews routes: the role
used by the ownership checks and the derived `reviewsCount` counter. -/
structure User where
  uid : Nat
  role : String
  reviewsCount : Int
  isActive : Bool
deriving Repr, DecidableEq

/-- The document store: the three collections the reviews routes touch. -/
structure DB where
  books : List Book
  reviews : List Review
  users : List User
deriving Repr, DecidableEq

/-- `Book.findById`. -/
def DB.findBook (db : DB) (bid : Nat) : Option Book :=
  db.books.find? (fun b => b.bid == bid)

/-- `Review.findById`. -/
def DB.findReview (db : DB) (rid : Nat) : Option Review :=
  db.reviews.find? (fun r => r.rid == rid)

/-- `User.findById`. -/
def DB.findUser (db : DB) (uid : Nat) : Option User :=
  db.users.find? (fun u => u.uid == uid)

/-- Persisting a (possibly modified) book document: the stored document with
the same id is replaced. -/
def DB.saveBook (db : DB) (b : Book) : DB :=
  { db with books := db.books.map (fun x => if x.bid == b.bid then b else x) }

/-- Persisting a (possibly modified) review document. -/
def DB.saveReview (db : DB) (r : Review) : DB :=
  { db with reviews := db.reviews.map (fun x => if x.rid == r.rid then r else x) }

/-- `User.findByIdAndUpdate(uid, { $inc: { reviewsCount: d } })`: a bare
counter increment with no clamping (`reviews.js` lines 50 and 225). -/
def DB.incReviewsCount (db : DB) (uid : Nat) (d : Int) : DB :=
  { db with users := db.users.map (fun u => if u.uid == uid then { u with reviewsCount := u.reviewsCount + d } else u) }

/-- JavaScript `Math.round`: rounds half toward positive infinity. -/
def jsRound (q : ℚ) : Int :=
  Int.floor (q + 1 / 2)

/-- The rounding used by `Book.updateAverageRating`:
`Math.round(avg * 10) / 10` (`Book.js` line 181). -/
def round1 (q : ℚ) : ℚ :=
  (jsRound (q * 10) : ℚ) / 10

/-- Rounding to one decimal place using round-half-away-from-zero, as the
spec words the aggregation algorithm.  Kept separate from `round1` so the
code's rounding can be compared against the spec's. -/
def roundHalfAwayFromZero1 (q : ℚ) : ℚ :=
  if q < 0 then -((Int.floor (-q * 10 + 1 / 2) : ℚ) / 10)
  else (Int.floor (q * 10 + 1 / 2) : ℚ) / 10

/-- The `$match` stage of `Book.updateAverageRating`'s aggregation pipeline:
`{ $match: { book: this._id } }` — note the stage filters on the book id only
and does not filter on `isActive` (`Book.js` line 170).  Returns the ratings
of the matched review documents. -/
def matchedRatings (reviews : List Review) (bid : Nat) : List Nat :=
  (reviews.filter (fun r => r.book == bid)).map (fun r => r.rating)

/-- The `$group` stage plus the branch on `stats.length` of
`Book.updateAverageRating`: the `$avg` of the matched ratings rounded by
`Math.round(x * 10) / 10` and the `$sum: 1` count, or `(0, 0)` when no
review matched (`Book.js` lines 172 to 186). -/
def recomputeStats (rs : List Nat) : ℚ × Nat :=
  if rs.length > 0 then (round1 ((rs.sum : ℚ) / (rs.length : ℚ)), rs.length)
  else (0, 0)

/-- `Book.updateAverageRating` (`Book.js` lines 167 to 189): recompute the two
derived fields from the current review documents of the book, assign them on
the given (possibly stale) book object, and save it.  `saveFails` models the
store write for the derived fields failing, in which case the method throws
and nothing is written. -/
def updateAverageRating (db : DB) (b : Book) (saveFails : Bool) : Except Unit DB :=
  let s := recomputeStats (matchedRatings db.reviews b.bid)
  let b2 : Book := { b with averageRating := s.1, totalRatings := s.2 }
  if saveFails then Except.error () else Except.ok (db.saveBook b2)

/-- The `reviewSchema.pre` save hook body (`Review.js` lines 111 to 124): look
the book up, recompute its rating, and swallow any error (the hook logs and
calls `next()` regardless, so a failed aggregation leaves the store unchanged
and the surrounding save still succeeds). -/
def hookAggregate (db : DB) (bid : Nat) (saveFails : Bool) : DB :=
  match db.findBook bid with
  | none => db
  | some b =>
    match updateAverageRating db b saveFails with
    | Except.ok db2 => db2
    | Except.error _ => db

/-- The route-level aggregation call pattern
`const book = await Book.findById(...); if (book) await book.updateAverageRating();`
(`reviews.js` lines 178 to 181 and 219 to 222): skipped when the book is
missing, and any failure propagates to the route's catch block. -/
def routeAggregate (db : DB) (bid : Nat) (saveFails : Bool) : Except Unit DB :=
  match db.findBook bid with
  | none => Except.ok db
  | some b => updateAverageRating db b saveFails

/-- Removal of the first occurrence of `u`, as performed by
`users.splice(users.indexOf(u), 1)` in the toggle methods. -/
def spliceOut (l : List Nat) (u : Nat) : List Nat :=
  match l with
  | [] => []
  | x :: xs => if x = u then xs else x :: spliceOut xs u

/-- The shared body of `markHelpful` and `toggleLike` (`Review.js` lines 141
to 170): if the user is absent from the voter array, push it and increment the
counter; otherwise splice it out and decrement the counter. -/
def toggleVote (v : VoteBlock) (u : Nat) : VoteBlock :=
  if u ∈ v.users then { count := v.count - 1, users := spliceOut v.users u }
  else { count := v.count + 1, users := v.users ++ [u] }

/-- `reviewSchema.methods.markHelpful` applied to the document state. -/
def Review.markHelpful (r : Review) (u : Nat) : Review :=
  { r with helpful := toggleVote r.helpful u }

/-- `reviewSchema.methods.toggleLike` applied to the document state. -/
def Review.toggleLike (r : Review) (u : Nat) : Review :=
  { r with likes := toggleVote r.likes u }

/-- The body of `POST /api/reviews` (`reviews.js` lines 13 to 66).  Optional
request fields are `Option`s; `none` is JavaScript `undefined`. -/
structure CreateReq where
  userId : Nat
  bookId : Nat
  rating : Nat
  title : String
  content : String
  spoilerAlert : Option Bool
  readingStatus : Option String
  format : Option String
  price : Option ℚ
  currency : Option String
deriving Repr, DecidableEq

/-- An HTTP response: the status code sent and the store state after the
request finished. -/
structure HResp where
  status : Nat
  db : DB
deriving Repr, DecidableEq

/-- The review document built by `POST /api/reviews` (`reviews.js` lines 30
to 42) together with the schema defaults of `Review.js`: `||`-style fallbacks
for the optional body fields, and `readDate` set from the *raw* body value of
`readingStatus` (so an absent `readingStatus` stores status `Read` with a
null `readDate`, as in the source). -/
def newReview (req : CreateReq) (newId now : Nat) : Review :=
  { rid := newId
    user := req.userId
    book := req.bookId
    rating := req.rating
    title := req.title
    content := req.content
    spoilerAlert := req.spoilerAlert.getD false
    readingStatus := req.readingStatus.getD "Read"
    format := req.format.getD "Paperback"
    price := req.price
    currency := req.currency.getD "USD"
    readDate := if req.readingStatus = some "Read" then some now else none
    helpful := ⟨0, []⟩
    likes := ⟨0, []⟩
    isVerified := false
    isActive := true }

/-- `POST /api/reviews` (`reviews.js` lines 13 to 66).  `newId` is the id the
store assigns to the inserted review and `now` the request timestamp.
Status codes as in the source: 404 book missing or inactive, 400 duplicate
review, 201 created, 500 a later step threw.  The pre-save hook runs before
the review row is written and swallows aggregation failures; the route-level
`book.updateAverageRating()` call propagates them to the catch block. -/
def createReview (db : DB) (req : CreateReq) (newId now : Nat) (aggSaveFails : Bool) : HResp :=
  match db.findBook req.bookId with
  | none => ⟨404, db⟩
  | some book =>
    if !book.isActive then ⟨404, db⟩
    else if (db.reviews.find? (fun r => r.user == req.userId && r.book == req.bookId)).isSome then
      ⟨400, db⟩
    else
      let review : Review := newReview req newId now
      let db1 := hookAggregate db req.bookId aggSaveFails
      let db2 : DB := { db1 with reviews := db1.reviews ++ [review] }
      match updateAverageRating db2 book aggSaveFails with
      | Except.error _ => ⟨500, db2⟩
      | Except.ok db3 => ⟨201, db3.incReviewsCount req.userId 1⟩

/-- The body of `PUT /api/reviews/:id`: the allowed update fields, each
`none` when absent from the request (`reviews.js` line 167). -/
structure UpdateReq where
  rating : Option Nat
  title : Option String
  content : Option String
  spoilerAlert : Option Bool
  readingStatus : Option String
  format : Option String
  price : Option ℚ
  currency : Option String
  readDate : Option Nat
deriving Repr, DecidableEq

/-- The `allowedFields.forEach` loop of `PUT /api/reviews/:id` (`reviews.js`
lines 166 to 172): each field present in the request body is assigned onto
the document, absent fields are left untouched. -/
def applyFields (r : Review) (req : UpdateReq) : Review :=
  { r with
    rating := req.rating.getD r.rating
    title := req.title.getD r.title
    content := req.content.getD r.content
    spoilerAlert := req.spoilerAlert.getD r.spoilerAlert
    readingStatus := req.readingStatus.getD r.readingStatus
    format := req.format.getD r.format
    price := match req.price with | some p => some p | none => r.price
    currency := req.currency.getD r.currency
    readDate := match req.readDate with | some d => some d | none => r.readDate }

/-- `PUT /api/reviews/:id` (`reviews.js` lines 153 to 196).  Status codes as
in the source: 404 review missing or inactive, 403 requester neither author
nor admin, 200 updated, 500 the route-level aggregation threw.  The pre-save
hook fires only when the rating path was modified and reads the pre-write
state; the route re-aggregates exactly when `rating` was present in the
request body. -/
def updateReview (db : DB) (reviewId requesterId : Nat) (role : String)
    (req : UpdateReq) (aggSaveFails : Bool) : HResp :=
  match db.findReview reviewId with
  | none => ⟨404, db⟩
  | some review =>
    if !review.isActive then ⟨404, db⟩
    else if review.user != requesterId && role != "admin" then ⟨403, db⟩
    else
      let review2 := applyFields review req
      let db1 := if review2.rating ≠ review.rating
        then hookAggregate db review.book aggSaveFails else db
      let db2 := db1.saveReview review2
      if req.rating.isSome then
        match routeAggregate db2 review.book aggSaveFails with
        | Except.error _ => ⟨500, db2⟩
        | Except.ok db3 => ⟨200, db3⟩
      else ⟨200, db2⟩

/-- `DELETE /api/reviews/:id` (`reviews.js` lines 201 to 234).  Status codes
as in the source: 404 review missing or inactive, 403 requester neither
author nor admin, 200 deleted, 500 the route-level aggregation threw.  The
handler soft-deletes (sets `isActive = false` and saves; the row is never
removed), re-aggregates the book, and then decrements the author's
`reviewsCount` by 1 with no floor. -/
def deleteReview (db : DB) (reviewId requesterId : Nat) (role : String)
    (aggSaveFails : Bool) : HResp :=
  match db.findReview reviewId with
  | none => ⟨404, db⟩
  | some review =>
    if !review.isActive then ⟨404, db⟩
    else if review.user != requesterId && role != "admin" then ⟨403, db⟩
    else
      let review2 : Review := { review with isActive := false }
      let db1 := db.saveReview review2
      match routeAggregate db1 review.book aggSaveFails with
      | Except.error _ => ⟨500, db1⟩
      | Except.ok db2 => ⟨200, db2.incReviewsCount review.user (-1)⟩

/-- `POST /api/reviews/:id/helpful` (`reviews.js` lines 239 to 258): look the
review up, reject missing or inactive reviews, otherwise toggle and save. -/
def markHelpfulRoute (db : DB) (reviewId userId : Nat) : HResp :=
  match db.findReview reviewId with
  | none => ⟨404, db⟩
  | some r =>
    if !r.isActive then ⟨404, db⟩
    else ⟨200, db.saveReview (r.markHelpful userId)⟩

/-- `POST /api/reviews/:id/like` (`reviews.js` lines 263 to 282). -/
def toggleLikeRoute (db : DB) (reviewId userId : Nat) : HResp :=
  match db.findReview reviewId with
  | none => ⟨404, db⟩
  | some r =>
    if !r.isActive then ⟨404, db⟩
    else ⟨200, db.saveReview (r.toggleLike userId)⟩

/-- The id the store assigns to a newly inserted review document: the store
guarantees a fresh `_id`, modelled as one more than the largest id in use. -/
def freshId (db : DB) : Nat :=
  (db.reviews.map (fun r => r.rid)).foldr max 0 + 1

/-- Review ids identify documents uniquely, as the store's `_id` does. -/
def ridsNodup (db : DB) : Prop :=
  (db.reviews.map (fun r => r.rid)).Nodup

/-- One state-changing request against the reviews API.  A create carries the
request body, the request time and whether the aggregation write fails; the
store assigns the new document id itself. -/
inductive Op where
  | create (req : CreateReq) (now : Nat) (f : Bool)
  | update (reviewId requesterId : Nat) (role : String) (req : UpdateReq) (f : Bool)
  | delete (reviewId requesterId : Nat) (role : String) (f : Bool)
  | helpful (reviewId userId : Nat)
  | like (reviewId userId : Nat)
deriving Repr, DecidableEq

/-- The store state after one request (whatever status it returned).  The id
of an inserted review is store-assigned and fresh (`freshId`). -/
def applyOp (db : DB) : Op → DB
  | Op.create req now f => (createReview db req (freshId db) now f).db
  | Op.update reviewId requesterId role req f =>
      (updateReview db reviewId requesterId role req f).db
  | Op.delete reviewId requesterId role f =>
      (deleteReview db reviewId requesterId role f).db
  | Op.helpful reviewId userId => (markHelpfulRoute db reviewId userId).db
  | Op.like reviewId userId => (toggleLikeRoute db reviewId userId).db

/-- The store state after a sequence of requests. -/
def applyOps (db : DB) : List Op → DB
  | [] => db
  | op :: ops => applyOps (applyOp db op) ops

/-- A review row for the pair `(u, b)` exists in the store, active or not. -/
def hasReview (db : DB) (u b : Nat) : Prop :=
  ∃ r ∈ db.reviews, r.user = u ∧ r.book = b

/-- A concrete review document used to instantiate hypotheses of the
interaction-ledger theorems. -/
def rSample : Review :=
  { rid := 1, user := 1, book := 1, rating := 4, title := "t", content := "c"
    spoilerAlert := false, readingStatus := "Read", format := "Paperback"
    price := none, currency := "USD", readDate := none
    helpful := ⟨1, [7]⟩, likes := ⟨0, []⟩, isVerified := false, isActive := true }

theorem spliceOut_of_not_mem {l : List Nat} {u : Nat} (h : u ∉ l) : spliceOut l u = l := by
  induction l with
  | nil => rfl
  | cons x xs ih =>
    simp only [List.mem_cons, not_or] at h
    have hxu : ¬x = u := fun hx => h.1 hx.symm
    simp [spliceOut, hxu, ih h.2]

theorem length_spliceOut {l : List Nat} {u : Nat} (h : u ∈ l) :
    l.length = (spliceOut l u).length + 1 := by
  induction l with
  | nil => simp at h
  | cons x xs ih =>
    by_cases hx : x = u
    · simp [spliceOut, hx]
    · rcases List.mem_cons.mp h with h1 | h2
      · exact absurd h1.symm hx
      · simp [spliceOut, hx, ih h2]

theorem mem_spliceOut {l : List Nat} {u a : Nat} (hn : l.Nodup) :
    a ∈ spliceOut l u ↔ a ∈ l ∧ a ≠ u := by
  induction l with
  | nil => simp [spliceOut]
  | cons x xs ih =>
    rw [List.nodup_cons] at hn
    by_cases hx : x = u
    · simp only [spliceOut, if_pos hx, List.mem_cons]
      constructor
      · intro ha
        refine ⟨Or.inr ha, fun he => hn.1 ?_⟩
        rw [hx, ← he]
        exact ha
      · rintro ⟨h1 | h2, hne⟩
        · exact absurd (h1.trans hx) hne
        · exact h2
    · simp only [spliceOut, if_neg hx, List.mem_cons, ih hn.2]
      constructor
      · rintro (h1 | ⟨h2, h3⟩)
        · exact ⟨Or.inl h1, fun he => hx (h1.symm.trans he)⟩
        · exact ⟨Or.inr h2, h3⟩
      · rintro ⟨h1 | h2, h3⟩
        · exact Or.inl h1
        · exact Or.inr ⟨h2, h3⟩

theorem nodup_spliceOut {l : List Nat} {u : Nat} (hn : l.Nodup) : (spliceOut l u).Nodup := by
  induction l with
  | nil => simp [spliceOut]
  | cons x xs ih =>
    rw [List.nodup_cons] at hn
    by_cases hx : x = u
    · simp [spliceOut, hx, hn.2]
    · rw [spliceOut]
      simp only [if_neg hx, List.nodup_cons]
      refine ⟨fun hm => hn.1 ((mem_spliceOut hn.2).mp hm).1, ih hn.2⟩

theorem spliceOut_append {l : List Nat} {u : Nat} (h : u ∉ l) :
    spliceOut (l ++ [u]) u = l := by
  induction l with
  | nil => simp [spliceOut]
  | cons x xs ih =>
    simp only [List.mem_cons, not_or] at h
    have hxu : ¬x = u := fun hx => h.1 hx.symm
    simp [spliceOut, hxu, ih h.2]

theorem toggleVote_mem {v : VoteBlock} {u : Nat} (h : u ∈ v.users) :
    toggleVote v u = ⟨v.count - 1, spliceOut v.users u⟩ := by
  simp [toggleVote, h]

theorem toggleVote_not_mem {v : VoteBlock} {u : Nat} (h : u ∉ v.users) :
    toggleVote v u = ⟨v.count + 1, v.users ++ [u]⟩ := by
  simp [toggleVote, h]

theorem toggleVote_invariant {v : VoteBlock} {u : Nat}
    (hn : v.users.Nodup) (hc : v.count = (v.users.length : Int)) :
    (toggleVote v u).users.Nodup
      ∧ (toggleVote v u).count = ((toggleVote v u).users.length : Int) := by
  by_cases h : u ∈ v.users
  · rw [toggleVote_mem h]
    refine ⟨nodup_spliceOut hn, ?_⟩
    have hl := length_spliceOut h
    show v.count - 1 = ((spliceOut v.users u).length : Int)
    omega
  · rw [toggleVote_not_mem h]
    refine ⟨?_, ?_⟩
    · simp only [List.nodup_append, List.nodup_cons, List.not_mem_nil, not_false_iff,
        List.nodup_nil, and_true, true_and]
      exact ⟨hn, by simpa [List.disjoint_singleton] using h⟩
    · show v.count + 1 = ((v.users ++ [u]).length : Int)
      simp only [List.length_append, List.length_cons, List.length_nil]
      omega

theorem count_eq_card_toggle {v : VoteBlock} {u : Nat}
    (hn : v.users.Nodup) (hc : v.count = (v.users.toFinset.card : Int)) :
    (toggleVote v u).count = ((toggleVote v u).users.toFinset.card : Int)
      ∧ (toggleVote v u).users.Nodup := by
  have hc2 : v.count = (v.users.length : Int) := by
    rw [hc, List.toFinset_card_of_nodup hn]
  obtain ⟨hn2, hl2⟩ := toggleVote_invariant hn hc2
  exact ⟨by rw [hl2, List.toFinset_card_of_nodup hn2], hn2⟩

theorem toggleVote_twice {v : VoteBlock} {u : Nat} (hn : v.users.Nodup) :
    (toggleVote (toggleVote v u) u).count = v.count
    ∧ (toggleVote (toggleVote v u) u).users.toFinset = v.users.toFinset
    ∧ ((u ∈ (toggleVote v u).users
          ∧ (toggleVote (toggleVote v u) u).count = (toggleVote v u).count - 1)
        ↔ (u ∉ v.users ∧ (toggleVote v u).count = v.count + 1)) := by
  by_cases h : u ∈ v.users
  · rw [toggleVote_mem h]
    have hu2 : u ∉ spliceOut v.users u := fun hm => ((mem_spliceOut hn).mp hm).2 rfl
    rw [toggleVote_not_mem hu2]
    refine ⟨by show v.count - 1 + 1 = v.count; omega, ?_, ?_⟩
    · ext a
      simp only [List.mem_toFinset, List.mem_append, List.mem_cons, List.not_mem_nil,
        or_false, mem_spliceOut hn]
      constructor
      · rintro (⟨h1, _⟩ | h2)
        · exact h1
        · exact h2 ▸ h
      · intro ha
        by_cases hau : a = u
        · exact Or.inr hau
        · exact Or.inl ⟨ha, hau⟩
    · constructor
      · rintro ⟨hmem, _⟩
        exact absurd hmem hu2
      · rintro ⟨hnm, _⟩
        exact absurd h hnm
  · rw [toggleVote_not_mem h]
    have hu2 : u ∈ v.users ++ [u] := by simp
    rw [toggleVote_mem hu2]
    have hsp : spliceOut (v.users ++ [u]) u = v.users := spliceOut_append h
    refine ⟨by show v.count + 1 - 1 = v.count; omega, by rw [hsp], ?_⟩
    constructor
    · intro _
      exact ⟨h, rfl⟩
    · intro _
      exact ⟨hu2, rfl⟩

/-- C2: after every completed `markHelpful` or `toggleLike` call, the
`helpful.count` equals the cardinality of the `helpful` voter set and
`likes.count` equals the cardinality of the `likes` voter set, provided the
equalities (and set-ness of the voter arrays) held before the call: each
toggle updates the counter and the membership together, never one without the
other. -/
theorem C2_toggle_preserves_count_card (r : Review) (u : Nat)
    (hhn : r.helpful.users.Nodup)
    (hhc : r.helpful.count = (r.helpful.users.toFinset.card : Int))
    (hln : r.likes.users.Nodup)
    (hlc : r.likes.count = (r.likes.users.toFinset.card : Int)) :
    ((r.markHelpful u).helpful.count = (((r.markHelpful u).helpful.users).toFinset.card : Int)
      ∧ (r.markHelpful u).likes.count = (((r.markHelpful u).likes.users).toFinset.card : Int))
    ∧ ((r.toggleLike u).likes.count = (((r.toggleLike u).likes.users).toFinset.card : Int)
      ∧ (r.toggleLike u).helpful.count = (((r.toggleLike u).helpful.users).toFinset.card : Int)) := by
  have h1 := count_eq_card_toggle (v := r.helpful) (u := u) hhn hhc
  have h2 := count_eq_card_toggle (v := r.likes) (u := u) hln hlc
  exact ⟨⟨h1.1, hlc⟩, ⟨h2.1, hhc⟩⟩

theorem C2_toggle_preserves_count_card_witness :
    (((rSample.markHelpful 7).helpful.count
        = (((rSample.markHelpful 7).helpful.users).toFinset.card : Int)
      ∧ (rSample.markHelpful 7).likes.count
        = (((rSample.markHelpful 7).likes.users).toFinset.card : Int))
    ∧ ((rSample.toggleLike 7).likes.count
        = (((rSample.toggleLike 7).likes.users).toFinset.card : Int)
      ∧ (rSample.toggleLike 7).helpful.count
        = (((rSample.toggleLike 7).helpful.users).toFinset.card : Int))) :=
  C2_toggle_preserves_count_card rSample 7 (by decide) (by decide) (by decide) (by decide)

/-- C4: applying `markHelpful` (respectively `toggleLike`) twice in immediate
succession returns the review to its pre-call counter value and voter-set
membership, and the second call removes the user and decrements the counter
exactly when the first call added the user and incremented it. -/
theorem C4_double_toggle_restores (r : Review) (u : Nat)
    (hh : r.helpful.users.Nodup) (hl : r.likes.users.Nodup) :
    (((r.markHelpful u).markHelpful u).helpful.count = r.helpful.count
      ∧ ((r.markHelpful u).markHelpful u).helpful.users.toFinset = r.helpful.users.toFinset
      ∧ ((u ∈ (r.markHelpful u).helpful.users
            ∧ ((r.markHelpful u).markHelpful u).helpful.count
              = (r.markHelpful u).helpful.count - 1)
          ↔ (u ∉ r.helpful.users
            ∧ (r.markHelpful u).helpful.count = r.helpful.count + 1)))
    ∧ (((r.toggleLike u).toggleLike u).likes.count = r.likes.count
      ∧ ((r.toggleLike u).toggleLike u).likes.users.toFinset = r.likes.users.toFinset
      ∧ ((u ∈ (r.toggleLike u).likes.users
            ∧ ((r.toggleLike u).toggleLike u).likes.count
              = (r.toggleLike u).likes.count - 1)
          ↔ (u ∉ r.likes.users
            ∧ (r.toggleLike u).likes.count = r.likes.count + 1))) := by
  have h1 := toggleVote_twice (v := r.helpful) (u := u) hh
  have h2 := toggleVote_twice (v := r.likes) (u := u) hl
  exact ⟨h1, h2⟩

theorem C4_double_toggle_restores_witness :
    ((((rSample.markHelpful 7).markHelpful 7).helpful.count = rSample.helpful.count
      ∧ ((rSample.markHelpful 7).markHelpful 7).helpful.users.toFinset
        = rSample.helpful.users.toFinset
      ∧ ((7 ∈ (rSample.markHelpful 7).helpful.users
            ∧ ((rSample.markHelpful 7).markHelpful 7).helpful.count
              = (rSample.markHelpful 7).helpful.count - 1)
          ↔ (7 ∉ rSample.helpful.users
            ∧ (rSample.markHelpful 7).helpful.count = rSample.helpful.count + 1)))
    ∧ (((rSample.toggleLike 7).toggleLike 7).likes.count = rSample.likes.count
      ∧ ((rSample.toggleLike 7).toggleLike 7).likes.users.toFinset
        = rSample.likes.users.toFinset
      ∧ ((7 ∈ (rSample.toggleLike 7).likes.users
            ∧ ((rSample.toggleLike 7).toggleLike 7).likes.count
              = (rSample.toggleLike 7).likes.count - 1)
          ↔ (7 ∉ rSample.likes.users
            ∧ (rSample.toggleLike 7).likes.count = rSample.likes.count + 1)))) :=
  C4_double_toggle_restores rSample 7 (by decide) (by decide)

theorem length_le_sum_of_ratings {rs : List Nat} (h : ∀ x ∈ rs, 1 ≤ x) :
    rs.length ≤ rs.sum := by
  induction rs with
  | nil => simp
  | cons x xs ih =>
    simp only [List.length_cons, List.sum_cons]
    have h1 := h x (List.mem_cons_self x xs)
    have h2 := ih (fun y hy => h y (List.mem_cons_of_mem x hy))
    omega

theorem sum_le_five_mul_length {rs : List Nat} (h : ∀ x ∈ rs, x ≤ 5) :
    rs.sum ≤ 5 * rs.length := by
  induction rs with
  | nil => simp
  | cons x xs ih =>
    simp only [List.length_cons, List.sum_cons]
    have h1 := h x (List.mem_cons_self x xs)
    have h2 := ih (fun y hy => h y (List.mem_cons_of_mem x hy))
    omega

/-- C5: on a non-empty multiset of integer ratings each in `[1,5]`, the
rating recomputation stores as `averageRating` the arithmetic mean rounded to
one decimal place using round-half-away-from-zero (on this positive domain
JavaScript's round-half-up `Math.round` agrees with it), and the stored value
lies in `[0,5]`. -/
theorem C5_rounding_half_away_and_bounds (rs : List Nat) (hne : rs ≠ [])
    (hb : ∀ x ∈ rs, 1 ≤ x ∧ x ≤ 5) :
    (recomputeStats rs).1 = roundHalfAwayFromZero1 ((rs.sum : ℚ) / (rs.length : ℚ))
    ∧ 0 ≤ (recomputeStats rs).1 ∧ (recomputeStats rs).1 ≤ 5 := by
  have hlen : 0 < rs.length := List.length_pos.mpr hne
  have hlenQ : (0 : ℚ) < (rs.length : ℚ) := by exact_mod_cast hlen
  have hlo : rs.length ≤ rs.sum := length_le_sum_of_ratings (fun x hx => (hb x hx).1)
  have hhi : rs.sum ≤ 5 * rs.length := sum_le_five_mul_length (fun x hx => (hb x hx).2)
  set m : ℚ := (rs.sum : ℚ) / (rs.length : ℚ) with hm
  have hm1 : 1 ≤ m := by
    rw [hm, le_div_iff₀ hlenQ, one_mul]
    exact_mod_cast hlo
  have hm5 : m ≤ 5 := by
    rw [hm, div_le_iff₀ hlenQ]
    exact_mod_cast hhi
  have hstats : recomputeStats rs = (round1 m, rs.length) := by
    simp [recomputeStats, hlen, hm]
  have hfloor_lo : (10 : ℤ) ≤ ⌊m * 10 + 1 / 2⌋ := by
    rw [Int.le_floor]
    push_cast
    linarith
  have hfloor_hi : ⌊m * 10 + 1 / 2⌋ ≤ 50 := by
    have h51 : ⌊m * 10 + 1 / 2⌋ < 51 := by
      rw [Int.floor_lt]
      push_cast
      linarith
    omega
  have hr1 : round1 m = ((⌊m * 10 + 1 / 2⌋ : ℤ) : ℚ) / 10 := rfl
  have hspec : roundHalfAwayFromZero1 m = ((⌊m * 10 + 1 / 2⌋ : ℤ) : ℚ) / 10 := by
    rw [roundHalfAwayFromZero1, if_neg (by linarith : ¬m < 0)]
  have hcast_lo : (10 : ℚ) ≤ ((⌊m * 10 + 1 / 2⌋ : ℤ) : ℚ) := by exact_mod_cast hfloor_lo
  have hcast_hi : ((⌊m * 10 + 1 / 2⌋ : ℤ) : ℚ) ≤ 50 := by exact_mod_cast hfloor_hi
  rw [hstats]
  refine ⟨by rw [hspec]; exact hr1, ?_, ?_⟩
  · show 0 ≤ round1 m
    rw [hr1]
    linarith
  · show round1 m ≤ 5
    rw [hr1]
    linarith

theorem C5_rounding_half_away_and_bounds_witness :
    ((recomputeStats [1, 2, 2, 2]).1
      = roundHalfAwayFromZero1 ((([1, 2, 2, 2] : List Nat).sum : ℚ)
          / (([1, 2, 2, 2] : List Nat).length : ℚ))
    ∧ 0 ≤ (recomputeStats [1, 2, 2, 2]).1 ∧ (recomputeStats [1, 2, 2, 2]).1 ≤ 5) :=
  C5_rounding_half_away_and_bounds [1, 2, 2, 2] (by decide) (by decide)

/-- The one-book, one-user store on which the missing `isActive` filter of the
aggregation is exercised. -/
def c1State : DB :=
  ⟨[{ bid := 1, averageRating := 0, totalRatings := 0, isActive := true }], [],
    [{ uid := 1, role := "user", reviewsCount := 0, isActive := true }]⟩

/-- The create request for the scenario above. -/
def c1Request : CreateReq := ⟨1, 1, 5, "t", "cc", none, none, none, none, none⟩

/-- The store after user 1 creates a rating-5 review of book 1 and then
soft-deletes it (both requests succeed). -/
def c1After : DB :=
  (deleteReview (createReview c1State c1Request 1 0 false).db 1 1 "user" false).db

/-- C1 fails on the code: after a successful create followed by a successful
soft delete, the book has no active review left, yet the stored
`totalRatings` is still `1` and `averageRating` still `5`, because the
aggregation's `$match` stage filters on the book id only and never on
`isActive` (`Book.js` line 170), so the claimed equality with the active
review set does not hold. -/
theorem C1_delete_leaves_inactive_review_counted :
    (createReview c1State c1Request 1 0 false).status = 201
    ∧ (deleteReview (createReview c1State c1Request 1 0 false).db 1 1 "user" false).status = 200
    ∧ ((c1After.reviews.filter (fun r => r.book == 1 && r.isActive)).length = 0)
    ∧ c1After.findBook 1
      = some { bid := 1, averageRating := 5, totalRatings := 1, isActive := true } := by
  refine ⟨?_, ?_, ?_, ?_⟩ <;>
    norm_num [c1After, c1State, c1Request, createReview, newReview, deleteReview, hookAggregate,
      routeAggregate, updateAverageRating, recomputeStats, matchedRatings, round1, jsRound,
      DB.findBook, DB.findReview, DB.saveBook, DB.saveReview, DB.incReviewsCount]

theorem find?_map_update {α : Type} (key : α → Nat) (k : Nat) (f : α → α) (l : List α)
    (a : α) (h : l.find? (fun x => key x == k) = some a)
    (hf : ∀ x, key x = k → key (f x) = k) :
    (l.map (fun x => if key x == k then f x else x)).find? (fun x => key x == k)
      = some (f a) := by
  induction l with
  | nil => simp at h
  | cons x xs ih =>
    by_cases hx : key x = k
    · have hpx : (key x == k) = true := by simp [hx]
      have hfx : (key (f x) == k) = true := by simp [hf x hx]
      rw [List.find?_cons] at h
      simp only [hpx] at h
      rw [List.map_cons]
      simp only [hpx, if_true]
      rw [List.find?_cons]
      simp only [hfx]
      simp only [Option.some.injEq] at h ⊢
      rw [h]
    · have hpx : (key x == k) = false := by simp [hx]
      rw [List.find?_cons] at h
      simp only [hpx] at h
      rw [List.map_cons]
      simp only [hpx, if_false, Bool.false_eq_true]
      rw [List.find?_cons]
      simp only [hpx]
      exact ih h

theorem findReview_saveReview (db : DB) (r2 : Review) (a : Review)
    (h : db.findReview r2.rid = some a) :
    (db.saveReview r2).findReview r2.rid = some r2 := by
  have hh := find?_map_update (fun r : Review => r.rid) r2.rid (fun _ => r2) db.reviews a h
    (fun _ _ => rfl)
  simpa [DB.saveReview, DB.findReview] using hh

theorem findBook_saveBook (db : DB) (b2 : Book) (a : Book)
    (h : db.findBook b2.bid = some a) :
    (db.saveBook b2).findBook b2.bid = some b2 := by
  have hh := find?_map_update (fun b : Book => b.bid) b2.bid (fun _ => b2) db.books a h
    (fun _ _ => rfl)
  simpa [DB.saveBook, DB.findBook] using hh

theorem findUser_incReviewsCount (db : DB) (uid : Nat) (d : Int) (u : User)
    (h : db.findUser uid = some u) :
    (db.incReviewsCount uid d).findUser uid
      = some { u with reviewsCount := u.reviewsCount + d } := by
  have hh := find?_map_update (fun u : User => u.uid) uid
    (fun u => { u with reviewsCount := u.reviewsCount + d }) db.users u h (fun _ hx => hx)
  simpa [DB.incReviewsCount, DB.findUser] using hh

theorem findReview_saveReview_at (db : DB) (r2 a : Review) (k : Nat)
    (hk : r2.rid = k) (h : db.findReview k = some a) :
    (db.saveReview r2).findReview k = some r2 := by
  subst hk
  exact findReview_saveReview db r2 a h

theorem findBook_saveBook_at (db : DB) (b2 a : Book) (k : Nat)
    (hk : b2.bid = k) (h : db.findBook k = some a) :
    (db.saveBook b2).findBook k = some b2 := by
  subst hk
  exact findBook_saveBook db b2 a h

theorem saveReview_books (db : DB) (r : Review) : (db.saveReview r).books = db.books := rfl

theorem saveReview_users (db : DB) (r : Review) : (db.saveReview r).users = db.users := rfl

theorem saveBook_reviews (db : DB) (b : Book) : (db.saveBook b).reviews = db.reviews := rfl

theorem saveBook_users (db : DB) (b : Book) : (db.saveBook b).users = db.users := rfl

theorem incReviewsCount_books (db : DB) (uid : Nat) (d : Int) :
    (db.incReviewsCount uid d).books = db.books := rfl

theorem incReviewsCount_reviews (db : DB) (uid : Nat) (d : Int) :
    (db.incReviewsCount uid d).reviews = db.reviews := rfl

theorem hookAggregate_reviews (db : DB) (bid : Nat) (f : Bool) :
    (hookAggregate db bid f).reviews = db.reviews := by
  unfold hookAggregate updateAverageRating
  cases db.findBook bid with
  | none => rfl
  | some b => cases f <;> rfl

theorem hookAggregate_users (db : DB) (bid : Nat) (f : Bool) :
    (hookAggregate db bid f).users = db.users := by
  unfold hookAggregate updateAverageRating
  cases db.findBook bid with
  | none => rfl
  | some b => cases f <;> rfl

theorem hookAggregate_fails (db : DB) (bid : Nat) : hookAggregate db bid true = db := by
  unfold hookAggregate updateAverageRating
  cases db.findBook bid <;> rfl

theorem routeAggregate_fails (db : DB) (bid : Nat) (h : (db.findBook bid).isSome) :
    routeAggregate db bid true = Except.error () := by
  unfold routeAggregate updateAverageRating
  cases hb : db.findBook bid with
  | none => rw [hb] at h; simp at h
  | some b => rfl

theorem Book.bid_of_find (db : DB) (bid : Nat) (b : Book) (h : db.findBook bid = some b) :
    b.bid = bid := by
  have := List.find?_some h
  simpa using this

theorem Review.rid_of_find (db : DB) (rid : Nat) (r : Review) (h : db.findReview rid = some r) :
    r.rid = rid := by
  have := List.find?_some h
  simpa using this

theorem routeAggregate_found (db : DB) (bid : Nat) (b : Book) (h : db.findBook bid = some b) :
    routeAggregate db bid false
      = Except.ok (db.saveBook
          { b with
            averageRating := (recomputeStats (matchedRatings db.reviews bid)).1
            totalRatings := (recomputeStats (matchedRatings db.reviews bid)).2 }) := by
  have hbid : b.bid = bid := Book.bid_of_find db bid b h
  unfold routeAggregate updateAverageRating
  rw [h]
  dsimp only
  rw [hbid]
  rfl

theorem routeAggregate_missing (db : DB) (bid : Nat) (f : Bool) (h : db.findBook bid = none) :
    routeAggregate db bid f = Except.ok db := by
  unfold routeAggregate
  rw [h]

/-- The empty update request: no field present in the body. -/
def emptyUpdate : UpdateReq := ⟨none, none, none, none, none, none, none, none, none⟩

/-- A store whose only book (id 1) is soft-deleted while a review row for
(user 1, book 1) exists. -/
def c3State : DB :=
  ⟨[{ bid := 1, averageRating := 0, totalRatings := 0, isActive := false }], [rSample], []⟩

/-- C3 fails as universally stated: when the referenced book is soft-deleted
(a reachable state, since `DELETE /api/books/:id` only marks `isActive =
false`), a create for a pair that already has a review fails with the
book-not-found error (404), not with the duplicate error (400) — the book
check precedes the duplicate check. -/
theorem C3_duplicate_not_reported_when_book_inactive :
    (∃ r ∈ c3State.reviews, r.user = 1 ∧ r.book = 1)
    ∧ (createReview c3State ⟨1, 1, 4, "t", "cc", none, none, none, none, none⟩ 2 0 false).status
        = 404
    ∧ (createReview c3State ⟨1, 1, 4, "t", "cc", none, none, none, none, none⟩ 2 0 false).status
        ≠ 400 := by
  refine ⟨⟨rSample, by decide, by decide, by decide⟩, by decide, by decide⟩

/-- C3 (amended): provided the referenced book record exists and is active —
otherwise the create fails earlier with the book-not-found error —
`createReview` fails with `DuplicateReview` (status 400) whenever any review
row for the pair already exists, active or inactive (the duplicate check does
not condition on `isActive`), and the store is left unchanged, so no second
review row is ever created. -/
theorem C3_duplicate_check_ignores_isActive (db : DB) (req : CreateReq) (newId now : Nat)
    (f : Bool) (b : Book) (hb : db.findBook req.bookId = some b) (hact : b.isActive = true)
    (r : Review) (hr : r ∈ db.reviews) (hu : r.user = req.userId) (hbk : r.book = req.bookId) :
    (createReview db req newId now f).status = 400
    ∧ (createReview db req newId now f).db = db := by
  have hdup : (db.reviews.find? (fun x => x.user == req.userId && x.book == req.bookId)).isSome := by
    rw [List.find?_isSome]
    exact ⟨r, hr, by simp [hu, hbk]⟩
  unfold createReview
  rw [hb]
  simp [hact, hdup]

/-- A store with one active book (id 1) and the sample review row. -/
def c3ActiveState : DB :=
  ⟨[{ bid := 1, averageRating := 0, totalRatings := 0, isActive := true }], [rSample], []⟩

theorem C3_duplicate_check_ignores_isActive_witness :
    (createReview c3ActiveState ⟨1, 1, 4, "t", "cc", none, none, none, none, none⟩ 2 0
        false).status = 400
    ∧ (createReview c3ActiveState ⟨1, 1, 4, "t", "cc", none, none, none, none, none⟩ 2 0
        false).db = c3ActiveState :=
  C3_duplicate_check_ignores_isActive c3ActiveState
    ⟨1, 1, 4, "t", "cc", none, none, none, none, none⟩ 2 0 false
    { bid := 1, averageRating := 0, totalRatings := 0, isActive := true }
    (by decide) (by decide) rSample (by decide) (by decide) (by decide)

/-- A store whose only review row (id 1, author 1) is soft-deleted. -/
def c6State : DB := ⟨[], [{ rSample with isActive := false }], []⟩

/-- C6 fails as universally stated over all reviews: for a soft-deleted
review, a requester who is neither the author nor an administrator gets the
not-found error (404), not `Forbidden` (403) — the missing-or-inactive check
precedes the ownership check in both handlers. -/
theorem C6_inactive_review_not_forbidden :
    ({ rSample with isActive := false } : Review).user ≠ 2
    ∧ (updateReview c6State 1 2 "user" emptyUpdate false).status = 404
    ∧ (updateReview c6State 1 2 "user" emptyUpdate false).status ≠ 403
    ∧ (deleteReview c6State 1 2 "user" false).status = 404
    ∧ (deleteReview c6State 1 2 "user" false).status ≠ 403 := by
  refine ⟨by decide, by decide, by decide, by decide, by decide⟩

/-- C6 (amended): for every existing *active* review and requester who is
neither the review's author nor an administrator, both the update and the
delete handler fail with `Forbidden` (status 403) and leave the store — in
particular the review record — completely unmodified.  (For a missing or
soft-deleted review both handlers instead fail earlier with 404, also leaving
the store unmodified.) -/
theorem C6_forbidden_for_active_review (db : DB) (reviewId requesterId : Nat) (role : String)
    (req : UpdateReq) (f : Bool) (r : Review)
    (hr : db.findReview reviewId = some r) (hact : r.isActive = true)
    (hown : r.user ≠ requesterId) (hrole : role ≠ "admin") :
    (updateReview db reviewId requesterId role req f).status = 403
    ∧ (updateReview db reviewId requesterId role req f).db = db
    ∧ (deleteReview db reviewId requesterId role f).status = 403
    ∧ (deleteReview db reviewId requesterId role f).db = db := by
  unfold updateReview deleteReview
  rw [hr]
  simp [hact, hown, hrole]

/-- A store with the sample active review row (id 1, author 1). -/
def c6ActiveState : DB := ⟨[], [rSample], []⟩

theorem C6_forbidden_for_active_review_witness :
    (updateReview c6ActiveState 1 2 "user" emptyUpdate false).status = 403
    ∧ (updateReview c6ActiveState 1 2 "user" emptyUpdate false).db = c6ActiveState
    ∧ (deleteReview c6ActiveState 1 2 "user" false).status = 403
    ∧ (deleteReview c6ActiveState 1 2 "user" false).db = c6ActiveState :=
  C6_forbidden_for_active_review c6ActiveState 1 2 "user" emptyUpdate false rSample
    (by decide) (by decide) (by decide) (by decide)

theorem deleteReview_normal (db : DB) (reviewId requesterId : Nat) (role : String) (f : Bool)
    (r : Review) (hr : db.findReview reviewId = some r) (hact : r.isActive = true)
    (hcond : (r.user != requesterId && role != "admin") = false) :
    deleteReview db reviewId requesterId role f
      = match routeAggregate (db.saveReview { r with isActive := false }) r.book f with
        | Except.error _ => ⟨500, db.saveReview { r with isActive := false }⟩
        | Except.ok db2 => ⟨200, db2.incReviewsCount r.user (-1)⟩ := by
  unfold deleteReview
  rw [hr]
  simp [hact, hcond]

/-- A store with one book (id 1), the sample active review of it by user 1,
and user 1 stored with `reviewsCount = 0`. -/
def c7State : DB :=
  ⟨[{ bid := 1, averageRating := 4, totalRatings := 1, isActive := true }], [rSample],
    [{ uid := 1, role := "user", reviewsCount := 0, isActive := true }]⟩

/-- C7 fails as stated: the delete handler decrements the author's
`reviewsCount` with a bare `$inc: -1` and no floor (`reviews.js` lines 225 to
227), so deleting an active review of an author stored with `reviewsCount =
0` drives the counter to `-1`, which is negative. -/
theorem C7_reviewsCount_goes_negative :
    (deleteReview c7State 1 1 "user" false).status = 200
    ∧ (deleteReview c7State 1 1 "user" false).db.findUser 1
        = some { uid := 1, role := "user", reviewsCount := -1, isActive := true }
    ∧ ¬(0 : Int) ≤ -1 := by
  refine ⟨by decide, by decide, by decide⟩

/-- C7 (amended): for every existing active review, an authorized delete
soft-deletes it — `isActive` becomes `false`, the row stays addressable by id
and the review collection keeps its size — invokes the rating aggregation on
the review's book, and decrements the author's stored `reviewsCount` by
exactly 1 *without* a floor at 0: if the stored counter was 0 it becomes -1,
so the code itself never prevents a negative value. -/
theorem C7_soft_delete_effects (db : DB) (reviewId requesterId : Nat) (role : String)
    (r : Review) (b : Book) (u : User)
    (hr : db.findReview reviewId = some r) (hact : r.isActive = true)
    (hauth : r.user = requesterId ∨ role = "admin")
    (hb : db.findBook r.book = some b) (hu : db.findUser r.user = some u) :
    (deleteReview db reviewId requesterId role false).status = 200
    ∧ (deleteReview db reviewId requesterId role false).db.findReview reviewId
        = some { r with isActive := false }
    ∧ (deleteReview db reviewId requesterId role false).db.reviews.length = db.reviews.length
    ∧ (deleteReview db reviewId requesterId role false).db.findBook r.book
        = some { b with
            averageRating := (recomputeStats (matchedRatings
              ((deleteReview db reviewId requesterId role false).db.reviews) r.book)).1
            totalRatings := (recomputeStats (matchedRatings
              ((deleteReview db reviewId requesterId role false).db.reviews) r.book)).2 }
    ∧ (deleteReview db reviewId requesterId role false).db.findUser r.user
        = some { u with reviewsCount := u.reviewsCount - 1 } := by
  have hrid : r.rid = reviewId := Review.rid_of_find db reviewId r hr
  have hcond : (r.user != requesterId && role != "admin") = false := by
    rcases hauth with h1 | h1 <;> simp [h1]
  have hbid : b.bid = r.book := Book.bid_of_find db r.book b hb
  have hb1 : (db.saveReview { r with isActive := false }).findBook r.book = some b := hb
  have hroute := routeAggregate_found (db.saveReview { r with isActive := false }) r.book b hb1
  have hnorm := deleteReview_normal db reviewId requesterId role false r hr hact hcond
  rw [hroute] at hnorm
  dsimp only at hnorm
  rw [hnorm]
  dsimp only
  refine ⟨rfl, ?_, ?_, ?_, ?_⟩
  · exact findReview_saveReview_at db { r with isActive := false } r reviewId hrid hr
  · exact List.length_map db.reviews _
  · have hbook := findBook_saveBook_at (db.saveReview { r with isActive := false })
      { b with
        averageRating := (recomputeStats (matchedRatings
          (db.saveReview { r with isActive := false }).reviews r.book)).1
        totalRatings := (recomputeStats (matchedRatings
          (db.saveReview { r with isActive := false }).reviews r.book)).2 }
      b r.book hbid hb1
    exact hbook
  · have huser := findUser_incReviewsCount
      ((db.saveReview { r with isActive := false }).saveBook
        { b with
          averageRating := (recomputeStats (matchedRatings
            (db.saveReview { r with isActive := false }).reviews r.book)).1
          totalRatings := (recomputeStats (matchedRatings
            (db.saveReview { r with isActive := false }).reviews r.book)).2 })
      r.user (-1) u hu
    have hval : u.reviewsCount + (-1) = u.reviewsCount - 1 := by omega
    rw [hval] at huser
    exact huser

theorem C7_soft_delete_effects_witness :
    (deleteReview c7State 1 1 "user" false).status = 200
    ∧ (deleteReview c7State 1 1 "user" false).db.findReview 1
        = some { rSample with isActive := false }
    ∧ (deleteReview c7State 1 1 "user" false).db.reviews.length = c7State.reviews.length
    ∧ (deleteReview c7State 1 1 "user" false).db.findBook rSample.book
        = some
          { bid := 1
            isActive := true
            averageRating := (recomputeStats (matchedRatings
              ((deleteReview c7State 1 1 "user" false).db.reviews) rSample.book)).1
            totalRatings := (recomputeStats (matchedRatings
              ((deleteReview c7State 1 1 "user" false).db.reviews) rSample.book)).2 }
    ∧ (deleteReview c7State 1 1 "user" false).db.findUser rSample.user
        = some { uid := 1, role := "user", reviewsCount := 0 - 1, isActive := true } :=
  C7_soft_delete_effects c7State 1 1 "user" rSample
    { bid := 1, averageRating := 4, totalRatings := 1, isActive := true }
    { uid := 1, role := "user", reviewsCount := 0, isActive := true }
    (by decide) (by decide) (Or.inl rfl) (by decide) (by decide)

theorem updateReview_normal (db : DB) (reviewId requesterId : Nat) (role : String)
    (req : UpdateReq) (f : Bool) (r : Review)
    (hr : db.findReview reviewId = some r) (hact : r.isActive = true)
    (hcond : (r.user != requesterId && role != "admin") = false) :
    updateReview db reviewId requesterId role req f
      = (if req.rating.isSome then
          match routeAggregate
              ((if (applyFields r req).rating ≠ r.rating
                then hookAggregate db r.book f else db).saveReview (applyFields r req))
              r.book f with
          | Except.error _ =>
            ⟨500, (if (applyFields r req).rating ≠ r.rating
                then hookAggregate db r.book f else db).saveReview (applyFields r req)⟩
          | Except.ok db3 => ⟨200, db3⟩
        else
          ⟨200, (if (applyFields r req).rating ≠ r.rating
              then hookAggregate db r.book f else db).saveReview (applyFields r req)⟩) := by
  unfold updateReview
  rw [hr]
  simp [hact, hcond]

/-- An update request whose only present field is `rating := 5`. -/
def ratingOnly : UpdateReq := ⟨some 5, none, none, none, none, none, none, none, none⟩

/-- C8: if the Rating Aggregator's persistence step fails after the review
row itself was successfully written, each of the three mutations (create,
rating edit, soft delete) is reported to the caller as failed (status 500,
the route's catch path), never as success — the pre-save hook does swallow
its own aggregation attempt, but every mutation path re-invokes the
aggregation at route level where the failure propagates.  The second conjunct
of each pair shows the review row itself was nevertheless written. -/
theorem C8_aggregation_failure_reported_failed
    (dbC : DB) (reqC : CreateReq) (newId now : Nat) (bC : Book)
    (dbU : DB) (ridU requesterU : Nat) (roleU : String) (requ : UpdateReq) (rU : Review)
    (dbD : DB) (ridD requesterD : Nat) (roleD : String) (rD : Review)
    (hC1 : dbC.findBook reqC.bookId = some bC) (hC2 : bC.isActive = true)
    (hC3 : dbC.reviews.find? (fun x => x.user == reqC.userId && x.book == reqC.bookId) = none)
    (hU1 : dbU.findReview ridU = some rU) (hU2 : rU.isActive = true)
    (hU3 : rU.user = requesterU ∨ roleU = "admin") (hU4 : requ.rating.isSome = true)
    (hU5 : (dbU.findBook rU.book).isSome = true)
    (hD1 : dbD.findReview ridD = some rD) (hD2 : rD.isActive = true)
    (hD3 : rD.user = requesterD ∨ roleD = "admin")
    (hD4 : (dbD.findBook rD.book).isSome = true) :
    ((createReview dbC reqC newId now true).status = 500
      ∧ (createReview dbC reqC newId now true).db.reviews.length = dbC.reviews.length + 1)
    ∧ ((updateReview dbU ridU requesterU roleU requ true).status = 500
      ∧ (updateReview dbU ridU requesterU roleU requ true).db.findReview ridU
          = some (applyFields rU requ))
    ∧ ((deleteReview dbD ridD requesterD roleD true).status = 500
      ∧ (deleteReview dbD ridD requesterD roleD true).db.findReview ridD
          = some { rD with isActive := false }) := by
  refine ⟨?_, ?_, ?_⟩
  · have hdup : (dbC.reviews.find?
        (fun x => x.user == reqC.userId && x.book == reqC.bookId)).isSome = false := by
      rw [hC3]
      rfl
    unfold createReview
    rw [hC1]
    simp [hC2, hdup, updateAverageRating, hookAggregate_fails]
  · have hcond : (rU.user != requesterU && roleU != "admin") = false := by
      rcases hU3 with h1 | h1 <;> simp [h1]
    have hridU : rU.rid = ridU := Review.rid_of_find dbU ridU rU hU1
    rw [updateReview_normal dbU ridU requesterU roleU requ true rU hU1 hU2 hcond]
    rw [if_pos (by rw [hU4])]
    by_cases hmod : (applyFields rU requ).rating ≠ rU.rating
    · rw [if_pos hmod, hookAggregate_fails]
      rw [routeAggregate_fails (dbU.saveReview (applyFields rU requ)) rU.book hU5]
      exact ⟨rfl, findReview_saveReview_at dbU (applyFields rU requ) rU ridU hridU hU1⟩
    · rw [if_neg hmod]
      rw [routeAggregate_fails (dbU.saveReview (applyFields rU requ)) rU.book hU5]
      exact ⟨rfl, findReview_saveReview_at dbU (applyFields rU requ) rU ridU hridU hU1⟩
  · have hcond : (rD.user != requesterD && roleD != "admin") = false := by
      rcases hD3 with h1 | h1 <;> simp [h1]
    have hridD : rD.rid = ridD := Review.rid_of_find dbD ridD rD hD1
    rw [deleteReview_normal dbD ridD requesterD roleD true rD hD1 hD2 hcond]
    rw [routeAggregate_fails (dbD.saveReview { rD with isActive := false }) rD.book hD4]
    exact ⟨rfl, findReview_saveReview_at dbD { rD with isActive := false } rD ridD hridD hD1⟩

theorem C8_aggregation_failure_reported_failed_witness :
    (((createReview c3ActiveState ⟨2, 1, 4, "t", "cc", none, none, none, none, none⟩ 9 0
        true).status = 500
      ∧ (createReview c3ActiveState ⟨2, 1, 4, "t", "cc", none, none, none, none, none⟩ 9 0
          true).db.reviews.length = c3ActiveState.reviews.length + 1)
    ∧ ((updateReview c7State 1 1 "user" ratingOnly true).status = 500
      ∧ (updateReview c7State 1 1 "user" ratingOnly true).db.findReview 1
          = some (applyFields rSample ratingOnly))
    ∧ ((deleteReview c7State 1 1 "user" true).status = 500
      ∧ (deleteReview c7State 1 1 "user" true).db.findReview 1
          = some { rSample with isActive := false })) :=
  C8_aggregation_failure_reported_failed c3ActiveState
    ⟨2, 1, 4, "t", "cc", none, none, none, none, none⟩ 9 0
    { bid := 1, averageRating := 0, totalRatings := 0, isActive := true }
    c7State 1 1 "user" ratingOnly rSample
    c7State 1 1 "user" rSample
    (by decide) (by decide) (by decide)
    (by decide) (by decide) (Or.inl rfl) (by decide) (by decide)
    (by decide) (by decide) (Or.inl rfl) (by decide)

theorem hookAggregate_found (db : DB) (bid : Nat) (b : Book) (h : db.findBook bid = some b) :
    hookAggregate db bid false
      = db.saveBook
          { b with
            averageRating := (recomputeStats (matchedRatings db.reviews bid)).1
            totalRatings := (recomputeStats (matchedRatings db.reviews bid)).2 } := by
  have hbid : b.bid = bid := Book.bid_of_find db bid b h
  unfold hookAggregate updateAverageRating
  rw [h]
  dsimp only
  rw [hbid]
  rfl

/-- C9: for every existing active review and authorized requester, the update
handler applies exactly the allowed fields explicitly present in the request
and leaves every absent field of the review unchanged (partial update, not
replace), persists exactly that record, and re-invokes the Rating Aggregator
on the review's book if and only if the present field set includes `rating`
(when `rating` is absent the books collection is untouched). -/
theorem C9_partial_update_and_conditional_reaggregation
    (db : DB) (reviewId requesterId : Nat) (role : String) (req : UpdateReq)
    (r : Review) (b : Book)
    (hr : db.findReview reviewId = some r) (hact : r.isActive = true)
    (hauth : r.user = requesterId ∨ role = "admin")
    (hb : db.findBook r.book = some b) :
    (updateReview db reviewId requesterId role req false).status = 200
    ∧ (updateReview db reviewId requesterId role req false).db.findReview reviewId
        = some (applyFields r req)
    ∧ (applyFields r req).rating = req.rating.getD r.rating
    ∧ (applyFields r req).title = req.title.getD r.title
    ∧ (applyFields r req).content = req.content.getD r.content
    ∧ (applyFields r req).spoilerAlert = req.spoilerAlert.getD r.spoilerAlert
    ∧ (applyFields r req).readingStatus = req.readingStatus.getD r.readingStatus
    ∧ (applyFields r req).format = req.format.getD r.format
    ∧ (applyFields r req).price = (match req.price with | some p => some p | none => r.price)
    ∧ (applyFields r req).currency = req.currency.getD r.currency
    ∧ (applyFields r req).readDate
        = (match req.readDate with | some d => some d | none => r.readDate)
    ∧ (applyFields r req).rid = r.rid
    ∧ (applyFields r req).user = r.user
    ∧ (applyFields r req).book = r.book
    ∧ (applyFields r req).helpful = r.helpful
    ∧ (applyFields r req).likes = r.likes
    ∧ (applyFields r req).isVerified = r.isVerified
    ∧ (applyFields r req).isActive = r.isActive
    ∧ (req.rating.isSome = true →
        (updateReview db reviewId requesterId role req false).db.findBook r.book
          = some { b with
              averageRating := (recomputeStats (matchedRatings
                ((updateReview db reviewId requesterId role req false).db.reviews) r.book)).1
              totalRatings := (recomputeStats (matchedRatings
                ((updateReview db reviewId requesterId role req false).db.reviews) r.book)).2 })
    ∧ (req.rating = none →
        (updateReview db reviewId requesterId role req false).db.books = db.books) := by
  have hcond : (r.user != requesterId && role != "admin") = false := by
    rcases hauth with h1 | h1 <;> simp [h1]
  have hrid : r.rid = reviewId := Review.rid_of_find db reviewId r hr
  have hbid : b.bid = r.book := Book.bid_of_find db r.book b hb
  have hnorm := updateReview_normal db reviewId requesterId role req false r hr hact hcond
  have hprice : (applyFields r req).price
      = (match req.price with | some p => some p | none => r.price) := rfl
  by_cases hrat : req.rating.isSome = true
  · rw [hrat, if_pos rfl] at hnorm
    by_cases hmod : (applyFields r req).rating ≠ r.rating
    · rw [if_pos hmod] at hnorm
      rw [hookAggregate_found db r.book b hb] at hnorm
      have hfb1 : ((db.saveBook
          { b with
            averageRating := (recomputeStats (matchedRatings db.reviews r.book)).1
            totalRatings := (recomputeStats (matchedRatings db.reviews r.book)).2
            }).saveReview (applyFields r req)).findBook r.book
          = some { b with
              averageRating := (recomputeStats (matchedRatings db.reviews r.book)).1
              totalRatings := (recomputeStats (matchedRatings db.reviews r.book)).2 } :=
        findBook_saveBook_at db
          { b with
            averageRating := (recomputeStats (matchedRatings db.reviews r.book)).1
            totalRatings := (recomputeStats (matchedRatings db.reviews r.book)).2 }
          b r.book hbid hb
      rw [routeAggregate_found _ r.book _ hfb1] at hnorm
      rw [hnorm]
      refine ⟨rfl, ?_, rfl, rfl, rfl, rfl, rfl, rfl, hprice, rfl, rfl, rfl, rfl, rfl, rfl,
        rfl, rfl, rfl, ?_, ?_⟩
      · exact findReview_saveReview_at
          (db.saveBook
            { b with
              averageRating := (recomputeStats (matchedRatings db.reviews r.book)).1
              totalRatings := (recomputeStats (matchedRatings db.reviews r.book)).2 })
          (applyFields r req) r reviewId hrid hr
      · intro _
        exact findBook_saveBook_at
          ((db.saveBook
            { b with
              averageRating := (recomputeStats (matchedRatings db.reviews r.book)).1
              totalRatings := (recomputeStats (matchedRatings db.reviews r.book)).2
              }).saveReview (applyFields r req))
          { b with
            averageRating := (recomputeStats (matchedRatings
              ((db.saveBook
                { b with
                  averageRating := (recomputeStats (matchedRatings db.reviews r.book)).1
                  totalRatings := (recomputeStats (matchedRatings db.reviews r.book)).2
                  }).saveReview (applyFields r req)).reviews r.book)).1
            totalRatings := (recomputeStats (matchedRatings
              ((db.saveBook
                { b with
                  averageRating := (recomputeStats (matchedRatings db.reviews r.book)).1
                  totalRatings := (recomputeStats (matchedRatings db.reviews r.book)).2
                  }).saveReview (applyFields r req)).reviews r.book)).2 }
          { b with
            averageRating := (recomputeStats (matchedRatings db.reviews r.book)).1
            totalRatings := (recomputeStats (matchedRatings db.reviews r.book)).2 }
          r.book hbid hfb1
      · intro hnone
        rw [hnone] at hrat
        simp at hrat
    · rw [if_neg hmod] at hnorm
      have hfb1 : (db.saveReview (applyFields r req)).findBook r.book = some b := hb
      rw [routeAggregate_found _ r.book _ hfb1] at hnorm
      rw [hnorm]
      refine ⟨rfl, ?_, rfl, rfl, rfl, rfl, rfl, rfl, hprice, rfl, rfl, rfl, rfl, rfl, rfl,
        rfl, rfl, rfl, ?_, ?_⟩
      · exact findReview_saveReview_at db (applyFields r req) r reviewId hrid hr
      · intro _
        exact findBook_saveBook_at (db.saveReview (applyFields r req))
          { b with
            averageRating := (recomputeStats (matchedRatings
              (db.saveReview (applyFields r req)).reviews r.book)).1
            totalRatings := (recomputeStats (matchedRatings
              (db.saveReview (applyFields r req)).reviews r.book)).2 }
          b r.book hbid hfb1
      · intro hnone
        rw [hnone] at hrat
        simp at hrat
  · have hnone : req.rating = none := by
      cases hcase : req.rating with
      | none => rfl
      | some v => rw [hcase] at hrat; simp at hrat
    have hisfalse : req.rating.isSome = false := by rw [hnone]; rfl
    rw [hisfalse] at hnorm
    simp only [Bool.false_eq_true, if_false] at hnorm
    have hmodeq : (applyFields r req).rating = r.rating := by
      show req.rating.getD r.rating = r.rating
      rw [hnone]
      rfl
    rw [if_neg (by rw [hmodeq]; exact fun hh => hh rfl)] at hnorm
    rw [hnorm]
    refine ⟨rfl, ?_, rfl, rfl, rfl, rfl, rfl, rfl, hprice, rfl, rfl, rfl, rfl, rfl, rfl,
      rfl, rfl, rfl, ?_, ?_⟩
    · exact findReview_saveReview_at db (applyFields r req) r reviewId hrid hr
    · intro hcontr
      rw [hcontr] at hisfalse
      simp at hisfalse
    · intro _
      rfl

theorem C9_partial_update_and_conditional_reaggregation_witness :
    (updateReview c7State 1 1 "user" ratingOnly false).status = 200
    ∧ (updateReview c7State 1 1 "user" ratingOnly false).db.findReview 1
        = some (applyFields rSample ratingOnly)
    ∧ (applyFields rSample ratingOnly).rating = ratingOnly.rating.getD rSample.rating
    ∧ (applyFields rSample ratingOnly).title = ratingOnly.title.getD rSample.title
    ∧ (applyFields rSample ratingOnly).content = ratingOnly.content.getD rSample.content
    ∧ (applyFields rSample ratingOnly).spoilerAlert
        = ratingOnly.spoilerAlert.getD rSample.spoilerAlert
    ∧ (applyFields rSample ratingOnly).readingStatus
        = ratingOnly.readingStatus.getD rSample.readingStatus
    ∧ (applyFields rSample ratingOnly).format = ratingOnly.format.getD rSample.format
    ∧ (applyFields rSample ratingOnly).price
        = (match ratingOnly.price with | some p => some p | none => rSample.price)
    ∧ (applyFields rSample ratingOnly).currency = ratingOnly.currency.getD rSample.currency
    ∧ (applyFields rSample ratingOnly).readDate
        = (match ratingOnly.readDate with | some d => some d | none => rSample.readDate)
    ∧ (applyFields rSample ratingOnly).rid = rSample.rid
    ∧ (applyFields rSample ratingOnly).user = rSample.user
    ∧ (applyFields rSample ratingOnly).book = rSample.book
    ∧ (applyFields rSample ratingOnly).helpful = rSample.helpful
    ∧ (applyFields rSample ratingOnly).likes = rSample.likes
    ∧ (applyFields rSample ratingOnly).isVerified = rSample.isVerified
    ∧ (applyFields rSample ratingOnly).isActive = rSample.isActive
    ∧ (ratingOnly.rating.isSome = true →
        (updateReview c7State 1 1 "user" ratingOnly false).db.findBook rSample.book
          = some
            { bid := 1
              isActive := true
              averageRating := (recomputeStats (matchedRatings
                ((updateReview c7State 1 1 "user" ratingOnly false).db.reviews)
                rSample.book)).1
              totalRatings := (recomputeStats (matchedRatings
                ((updateReview c7State 1 1 "user" ratingOnly false).db.reviews)
                rSample.book)).2 })
    ∧ (ratingOnly.rating = none →
        (updateReview c7State 1 1 "user" ratingOnly false).db.books = c7State.books) :=
  C9_partial_update_and_conditional_reaggregation c7State 1 1 "user" ratingOnly rSample
    { bid := 1, averageRating := 4, totalRatings := 1, isActive := true }
    (by decide) (by decide) (Or.inl rfl) (by decide)

theorem le_foldr_max {l : List Nat} {a : Nat} (h : a ∈ l) : a ≤ l.foldr max 0 := by
  induction l with
  | nil => simp at h
  | cons x xs ih =>
    rcases List.mem_cons.mp h with h1 | h2
    · rw [h1]
      exact le_max_left _ _
    · exact le_trans (ih h2) (le_max_right _ _)

theorem freshId_not_mem (db : DB) : freshId db ∉ db.reviews.map (fun r => r.rid) := by
  intro hmem
  have := le_foldr_max hmem
  unfold freshId at this
  omega

theorem rids_saveReview (db : DB) (r2 : Review) :
    (db.saveReview r2).reviews.map (fun r => r.rid) = db.reviews.map (fun r => r.rid) := by
  show (db.reviews.map _).map _ = _
  rw [List.map_map]
  apply List.map_congr_left
  intro x _
  show (if (x.rid == r2.rid) = true then r2 else x).rid = x.rid
  by_cases hxr : (x.rid == r2.rid) = true
  · rw [if_pos hxr]
    exact (eq_of_beq hxr).symm
  · rw [if_neg hxr]

theorem saveReview_reviews_congr (x y : DB) (r2 : Review) (h : x.reviews = y.reviews) :
    (x.saveReview r2).reviews = (y.saveReview r2).reviews := by
  show x.reviews.map _ = y.reviews.map _
  rw [h]

theorem hasPair_saveReview (db : DB) (rOld r2 : Review) (reviewId : Nat)
    (hn : ridsNodup db) (hfind : db.findReview reviewId = some rOld)
    (hrid2 : r2.rid = rOld.rid) (huser : r2.user = rOld.user) (hbook : r2.book = rOld.book)
    (u b : Nat) (h : ∃ x ∈ db.reviews, x.user = u ∧ x.book = b) :
    ∃ x ∈ (db.saveReview r2).reviews, x.user = u ∧ x.book = b := by
  obtain ⟨x, hx, hxu, hxb⟩ := h
  have hmem : rOld ∈ db.reviews := List.mem_of_find?_eq_some hfind
  by_cases hxr : (x.rid == r2.rid) = true
  · have hx_eq : x = rOld :=
      List.inj_on_of_nodup_map hn hx hmem (by rw [eq_of_beq hxr, hrid2])
    refine ⟨r2, ?_, ?_, ?_⟩
    · have hmm := List.mem_map_of_mem (fun y => if y.rid == r2.rid then r2 else y) hx
      have hgx : (fun y => if y.rid == r2.rid then r2 else y) x = r2 := by simp [hxr]
      rw [hgx] at hmm
      exact hmm
    · rw [huser, ← hx_eq]
      exact hxu
    · rw [hbook, ← hx_eq]
      exact hxb
  · refine ⟨x, ?_, hxu, hxb⟩
    have hmm := List.mem_map_of_mem (fun y => if y.rid == r2.rid then r2 else y) hx
    have hgx : (fun y => if y.rid == r2.rid then r2 else y) x = x := by simp [hxr]
    rw [hgx] at hmm
    exact hmm

theorem updateAverageRating_ok (db : DB) (b : Book) (f : Bool) (db2 : DB)
    (h : updateAverageRating db b f = Except.ok db2) :
    db2.reviews = db.reviews ∧ db2.users = db.users := by
  unfold updateAverageRating at h
  cases f
  · simp only [Bool.false_eq_true, if_false] at h
    injection h with h2
    rw [← h2]
    exact ⟨rfl, rfl⟩
  · simp at h

theorem routeAggregate_ok (db : DB) (bid : Nat) (f : Bool) (db2 : DB)
    (h : routeAggregate db bid f = Except.ok db2) :
    db2.reviews = db.reviews ∧ db2.users = db.users := by
  unfold routeAggregate at h
  cases hb : db.findBook bid with
  | none =>
    rw [hb] at h
    injection h with h2
    rw [← h2]
    exact ⟨rfl, rfl⟩
  | some b =>
    rw [hb] at h
    exact updateAverageRating_ok db b f db2 h

theorem createReview_reviews_shape (db : DB) (req : CreateReq) (newId now : Nat) (f : Bool) :
    ((createReview db req newId now f).status ≠ 201
      ∧ (createReview db req newId now f).db.reviews = db.reviews)
    ∨ (createReview db req newId now f).db.reviews
        = db.reviews ++ [newReview req newId now] := by
  unfold createReview
  split
  · left
    exact ⟨fun hh => by simp at hh, rfl⟩
  · split
    · left
      exact ⟨fun hh => by simp at hh, rfl⟩
    · split
      · left
        exact ⟨fun hh => by simp at hh, rfl⟩
      · dsimp only
        split
        · right
          show (hookAggregate db req.bookId f).reviews ++ [newReview req newId now] = _
          rw [hookAggregate_reviews]
        · rename_i db3 hok
          right
          have h3 := (updateAverageRating_ok _ _ _ _ hok).1
          show db3.reviews = _
          rw [h3]
          show (hookAggregate db req.bookId f).reviews ++ [newReview req newId now] = _
          rw [hookAggregate_reviews]

theorem updateReview_reviews_shape (db : DB) (reviewId requesterId : Nat) (role : String)
    (req : UpdateReq) (f : Bool) :
    (updateReview db reviewId requesterId role req f).db.reviews = db.reviews
    ∨ ∃ r, db.findReview reviewId = some r
        ∧ (updateReview db reviewId requesterId role req f).db.reviews
            = (db.saveReview (applyFields r req)).reviews := by
  unfold updateReview
  split
  · left
    rfl
  · rename_i r hfr
    split
    · left
      rfl
    · split
      · left
        rfl
      · have hdb1 : (if (applyFields r req).rating ≠ r.rating
            then hookAggregate db r.book f else db).reviews = db.reviews := by
          split
          · exact hookAggregate_reviews db r.book f
          · rfl
        split
        · dsimp only
          split
          · right
            exact ⟨r, hfr, saveReview_reviews_congr _ _ _ hdb1⟩
          · rename_i db3 hok
            right
            refine ⟨r, hfr, ?_⟩
            have h3 := (routeAggregate_ok _ _ _ _ hok).1
            show db3.reviews = _
            rw [h3]
            exact saveReview_reviews_congr _ _ _ hdb1
        · right
          exact ⟨r, hfr, saveReview_reviews_congr _ _ _ hdb1⟩

theorem deleteReview_reviews_shape (db : DB) (reviewId requesterId : Nat) (role : String)
    (f : Bool) :
    (deleteReview db reviewId requesterId role f).db.reviews = db.reviews
    ∨ ∃ r, db.findReview reviewId = some r
        ∧ (deleteReview db reviewId requesterId role f).db.reviews
            = (db.saveReview { r with isActive := false }).reviews := by
  unfold deleteReview
  split
  · left
    rfl
  · rename_i r hfr
    split
    · left
      rfl
    · split
      · left
        rfl
      · dsimp only
        split
        · right
          exact ⟨r, hfr, rfl⟩
        · rename_i db3 hok
          right
          refine ⟨r, hfr, ?_⟩
          have h3 := (routeAggregate_ok _ _ _ _ hok).1
          show db3.reviews = _
          rw [h3]

theorem markHelpfulRoute_reviews_shape (db : DB) (reviewId userId : Nat) :
    (markHelpfulRoute db reviewId userId).db.reviews = db.reviews
    ∨ ∃ r, db.findReview reviewId = some r
        ∧ (markHelpfulRoute db reviewId userId).db.reviews
            = (db.saveReview (r.markHelpful userId)).reviews := by
  unfold markHelpfulRoute
  split
  · left
    rfl
  · rename_i r hfr
    split
    · left
      rfl
    · right
      exact ⟨r, hfr, rfl⟩

theorem toggleLikeRoute_reviews_shape (db : DB) (reviewId userId : Nat) :
    (toggleLikeRoute db reviewId userId).db.reviews = db.reviews
    ∨ ∃ r, db.findReview reviewId = some r
        ∧ (toggleLikeRoute db reviewId userId).db.reviews
            = (db.saveReview (r.toggleLike userId)).reviews := by
  unfold toggleLikeRoute
  split
  · left
    rfl
  · rename_i r hfr
    split
    · left
      rfl
    · right
      exact ⟨r, hfr, rfl⟩

theorem ridsNodup_applyOp (db : DB) (op : Op) (hn : ridsNodup db) : ridsNodup (applyOp db op) := by
  cases op with
  | create req now f =>
    rcases createReview_reviews_shape db req (freshId db) now f with ⟨_, hs⟩ | hs
    · show ((createReview db req (freshId db) now f).db.reviews.map _).Nodup
      rw [hs]
      exact hn
    · show ((createReview db req (freshId db) now f).db.reviews.map _).Nodup
      rw [hs, List.map_append]
      rw [List.nodup_append]
      refine ⟨hn, by simp, ?_⟩
      intro a ha hb
      simp only [List.map_cons, List.map_nil, List.mem_cons, List.not_mem_nil, or_false] at hb
      rw [hb] at ha
      exact freshId_not_mem db ha
  | update reviewId requesterId role req f =>
    rcases updateReview_reviews_shape db reviewId requesterId role req f with hs | ⟨r, _, hs⟩
    · show ((updateReview db reviewId requesterId role req f).db.reviews.map _).Nodup
      rw [hs]
      exact hn
    · show ((updateReview db reviewId requesterId role req f).db.reviews.map _).Nodup
      rw [hs, rids_saveReview]
      exact hn
  | delete reviewId requesterId role f =>
    rcases deleteReview_reviews_shape db reviewId requesterId role f with hs | ⟨r, _, hs⟩
    · show ((deleteReview db reviewId requesterId role f).db.reviews.map _).Nodup
      rw [hs]
      exact hn
    · show ((deleteReview db reviewId requesterId role f).db.reviews.map _).Nodup
      rw [hs, rids_saveReview]
      exact hn
  | helpful reviewId userId =>
    rcases markHelpfulRoute_reviews_shape db reviewId userId with hs | ⟨r, _, hs⟩
    · show ((markHelpfulRoute db reviewId userId).db.reviews.map _).Nodup
      rw [hs]
      exact hn
    · show ((markHelpfulRoute db reviewId userId).db.reviews.map _).Nodup
      rw [hs, rids_saveReview]
      exact hn
  | like reviewId userId =>
    rcases toggleLikeRoute_reviews_shape db reviewId userId with hs | ⟨r, _, hs⟩
    · show ((toggleLikeRoute db reviewId userId).db.reviews.map _).Nodup
      rw [hs]
      exact hn
    · show ((toggleLikeRoute db reviewId userId).db.reviews.map _).Nodup
      rw [hs, rids_saveReview]
      exact hn

theorem hasReview_applyOp (db : DB) (op : Op) (u b : Nat) (hn : ridsNodup db)
    (h : hasReview db u b) : hasReview (applyOp db op) u b := by
  obtain ⟨x, hx, hxu, hxb⟩ := h
  cases op with
  | create req now f =>
    rcases createReview_reviews_shape db req (freshId db) now f with ⟨_, hs⟩ | hs
    · show ∃ y ∈ (createReview db req (freshId db) now f).db.reviews, _
      rw [hs]
      exact ⟨x, hx, hxu, hxb⟩
    · show ∃ y ∈ (createReview db req (freshId db) now f).db.reviews, _
      rw [hs]
      exact ⟨x, List.mem_append_left _ hx, hxu, hxb⟩
  | update reviewId requesterId role req f =>
    rcases updateReview_reviews_shape db reviewId requesterId role req f with hs | ⟨r, hfr, hs⟩
    · show ∃ y ∈ (updateReview db reviewId requesterId role req f).db.reviews, _
      rw [hs]
      exact ⟨x, hx, hxu, hxb⟩
    · show ∃ y ∈ (updateReview db reviewId requesterId role req f).db.reviews, _
      rw [hs]
      exact hasPair_saveReview db r (applyFields r req) reviewId hn hfr rfl rfl rfl u b
        ⟨x, hx, hxu, hxb⟩
  | delete reviewId requesterId role f =>
    rcases deleteReview_reviews_shape db reviewId requesterId role f with hs | ⟨r, hfr, hs⟩
    · show ∃ y ∈ (deleteReview db reviewId requesterId role f).db.reviews, _
      rw [hs]
      exact ⟨x, hx, hxu, hxb⟩
    · show ∃ y ∈ (deleteReview db reviewId requesterId role f).db.reviews, _
      rw [hs]
      exact hasPair_saveReview db r { r with isActive := false } reviewId hn hfr rfl rfl rfl u b
        ⟨x, hx, hxu, hxb⟩
  | helpful reviewId userId =>
    rcases markHelpfulRoute_reviews_shape db reviewId userId with hs | ⟨r, hfr, hs⟩
    · show ∃ y ∈ (markHelpfulRoute db reviewId userId).db.reviews, _
      rw [hs]
      exact ⟨x, hx, hxu, hxb⟩
    · show ∃ y ∈ (markHelpfulRoute db reviewId userId).db.reviews, _
      rw [hs]
      exact hasPair_saveReview db r (r.markHelpful userId) reviewId hn hfr rfl rfl rfl u b
        ⟨x, hx, hxu, hxb⟩
  | like reviewId userId =>
    rcases toggleLikeRoute_reviews_shape db reviewId userId with hs | ⟨r, hfr, hs⟩
    · show ∃ y ∈ (toggleLikeRoute db reviewId userId).db.reviews, _
      rw [hs]
      exact ⟨x, hx, hxu, hxb⟩
    · show ∃ y ∈ (toggleLikeRoute db reviewId userId).db.reviews, _
      rw [hs]
      exact hasPair_saveReview db r (r.toggleLike userId) reviewId hn hfr rfl rfl rfl u b
        ⟨x, hx, hxu, hxb⟩

theorem applyOps_preserves (ops : List Op) (db : DB) (u b : Nat) (hn : ridsNodup db)
    (h : hasReview db u b) :
    ridsNodup (applyOps db ops) ∧ hasReview (applyOps db ops) u b := by
  induction ops generalizing db with
  | nil => exact ⟨hn, h⟩
  | cons op ops ih =>
    exact ih (applyOp db op) (ridsNodup_applyOp db op hn) (hasReview_applyOp db op u b hn h)

theorem createReview_fails_of_hasReview (db : DB) (req : CreateReq) (newId now : Nat)
    (f : Bool) (h : hasReview db req.userId req.bookId) :
    (createReview db req newId now f).status ≠ 201
    ∧ (createReview db req newId now f).db = db := by
  obtain ⟨r, hr, hu, hb⟩ := h
  have hdup : (db.reviews.find?
      (fun x => x.user == req.userId && x.book == req.bookId)).isSome = true := by
    rw [List.find?_isSome]
    exact ⟨r, hr, by simp [hu, hb]⟩
  unfold createReview
  split
  · exact ⟨fun hh => by simp at hh, rfl⟩
  · rename_i book hfb
    by_cases hact : (!book.isActive) = true
    · rw [if_pos hact]
      exact ⟨fun hh => by simp at hh, rfl⟩
    · rw [if_neg hact, if_pos hdup]
      exact ⟨fun hh => by simp at hh, rfl⟩

theorem createReview_success_hasReview (db : DB) (req : CreateReq) (newId now : Nat)
    (f : Bool) (h : (createReview db req newId now f).status = 201) :
    hasReview (createReview db req newId now f).db req.userId req.bookId := by
  rcases createReview_reviews_shape db req newId now f with ⟨hne, _⟩ | hs
  · exact absurd h hne
  · exact ⟨newReview req newId now,
      by rw [hs]; exact List.mem_append_right _ (by simp), rfl, rfl⟩

/-- C10: once a user has successfully created a review for a book, no later
create for the same (user, book) pair ever succeeds in any reachable state —
whatever sequence of create/update/delete/toggle requests follows, including
soft-deleting that very review: deletion keeps the row and the duplicate
check ignores `isActive`, so the later create fails (and writes nothing). -/
theorem C10_create_never_succeeds_again (db0 : DB) (hn0 : ridsNodup db0)
    (req0 : CreateReq) (now0 : Nat) (f0 : Bool)
    (hsucc : (createReview db0 req0 (freshId db0) now0 f0).status = 201)
    (ops : List Op) (req : CreateReq) (hu : req.userId = req0.userId)
    (hb : req.bookId = req0.bookId) (newId now : Nat) (f : Bool) :
    (createReview (applyOps (applyOp db0 (Op.create req0 now0 f0)) ops) req newId now f).status
      ≠ 201
    ∧ (createReview (applyOps (applyOp db0 (Op.create req0 now0 f0)) ops) req newId now f).db
        = applyOps (applyOp db0 (Op.create req0 now0 f0)) ops := by
  have h1 : hasReview (applyOp db0 (Op.create req0 now0 f0)) req0.userId req0.bookId :=
    createReview_success_hasReview db0 req0 (freshId db0) now0 f0 hsucc
  have hn1 : ridsNodup (applyOp db0 (Op.create req0 now0 f0)) :=
    ridsNodup_applyOp db0 (Op.create req0 now0 f0) hn0
  have hfinal := applyOps_preserves ops (applyOp db0 (Op.create req0 now0 f0))
    req0.userId req0.bookId hn1 h1
  exact createReview_fails_of_hasReview _ req newId now f (by rw [hu, hb]; exact hfinal.2)

theorem C10_create_never_succeeds_again_witness :
    (createReview (applyOps (applyOp c1State (Op.create c1Request 0 false))
        [Op.delete 1 1 "user" false]) c1Request 5 3 false).status ≠ 201
    ∧ (createReview (applyOps (applyOp c1State (Op.create c1Request 0 false))
        [Op.delete 1 1 "user" false]) c1Request 5 3 false).db
        = applyOps (applyOp c1State (Op.create c1Request 0 false))
            [Op.delete 1 1 "user" false] :=
  C10_create_never_succeeds_again c1State
    (by show (c1State.reviews.map (fun r => r.rid)).Nodup; decide) c1Request 0 false (by decide)
    [Op.delete 1 1 "user" false] c1Request rfl rfl 5 3 false

end BookPlatform
